import Mathlib

/-!
Verification of the portfolio repository: a shallow embedding of the
i18n manager, the service-worker caching strategies, the build script's
asset pipeline and the contact-form submission handler, with theorems
settling the specification claims about them.
-/

namespace Portfolio

/-! ## JSON values

JSON values as produced by `response.json()` when a locale file is
loaded.  Numbers are modelled as integers (the locale files carry no
fractional numbers); object fields are an association list in document
order (JSON parsing leaves no duplicate keys). -/

inductive Json where
  | str (s : String)
  | num (n : Int)
  | bool (b : Bool)
  | null
  | arr (elems : List Json)
  | obj (fields : List (String × Json))

/-- JS truthiness of a value: `''`, `0`, `false` and `null` are falsy,
every array and object is truthy. -/
def jsTruthy : Json → Bool
  | .str s => s != ""
  | .num n => n != 0
  | .bool b => b
  | .null => false
  | .arr _ => true
  | .obj _ => true

/-- `typeof v === 'object'` holds for objects, arrays and `null`. -/
def jsIsObjectType : Json → Bool
  | .obj _ => true
  | .arr _ => true
  | .null => true
  | _ => false

/-- The canonical array-index reading of a string key, as used by the
`k in array` test: the key must print back to itself. -/
def canonIndex (k : String) : Option Nat :=
  match k.toNat? with
  | some n => if toString n == k then some n else none
  | none => none

/-- The JS `k in value` test on objects and arrays (for arrays: a
canonical index below the length, or the `length` property; inherited
prototype properties are not modelled). -/
def jsHasKey : Json → String → Bool
  | .obj fields, k => fields.any (fun f => f.1 == k)
  | .arr elems, k =>
      k == "length" ||
        (match canonIndex k with
         | some n => decide (n < elems.length)
         | none => false)
  | _, _ => false

/-- Property read `value[k]` (meaningful when `jsHasKey` holds). -/
def jsGet : Json → String → Json
  | .obj fields, k => ((fields.find? (fun f => f.1 == k)).map Prod.snd).getD .null
  | .arr elems, k =>
      if k == "length" then .num elems.length
      else
        match canonIndex k with
        | some n => elems.getD n .null
        | none => .null
  | _, _ => .null

/-- One step of the dotted-key walk, guarded exactly as in the source:
`value && typeof value === 'object' && k in value`. -/
def jsGetStep (value : Json) (k : String) : Option Json :=
  if jsTruthy value && jsIsObjectType value && jsHasKey value k then
    some (jsGet value k)
  else none

/-- Walk a list of key segments through a JSON value; `none` as soon as
one step's guard fails. -/
def walkJson : Json → List String → Option Json
  | v, [] => some v
  | v, k :: ks =>
    match jsGetStep v k with
    | some v' => walkJson v' ks
    | none => none

/-- The JS `a || b` idiom on values. -/
def jsOr (a b : Json) : Json := if jsTruthy a then a else b

/-- Split a character list at every occurrence of `c`, JS
`String.prototype.split` style: the empty list yields one empty group,
adjacent separators yield empty groups. -/
def splitOnChar (c : Char) : List Char → List (List Char)
  | [] => [[]]
  | x :: xs =>
    let r := splitOnChar c xs
    if x == c then [] :: r
    else
      match r with
      | [] => [[x]]
      | g :: gs => (x :: g) :: gs

/-- JS `key.split('.')`. -/
def jsSplitDot (key : String) : List String :=
  (splitOnChar '.' key.data).map (fun l => ⟨l⟩)

/-! ## I18nManager -/

/-- The state of `I18nManager` that `translate` reads: `currentLang`
(`null` until initialisation), the per-language map of loaded parsed
locale files, and `defaultLanguage` (`'pt-BR'` in the constructor). -/
structure I18nState where
  currentLang : Option String
  translations : List (String × Json)
  defaultLanguage : String

/-- `this.translations[lang]` (`none` for `undefined`). -/
def getTranslations (st : I18nState) (lang : String) : Option Json :=
  (st.translations.find? (fun p => p.1 == lang)).map Prod.snd

/-- `this.translations[this.currentLang]`. -/
def currentTranslations (st : I18nState) : Option Json :=
  match st.currentLang with
  | some l => getTranslations st l
  | none => none

/-- Truthiness of a possibly-undefined string (`!this.currentLang`). -/
def optStrTruthy : Option String → Bool
  | none => false
  | some s => s != ""

/-- Truthiness of a possibly-undefined JSON value. -/
def optJsonTruthy : Option Json → Bool
  | none => false
  | some j => jsTruthy j

/-- The `for (const k of keys)` loop of `translate`.  `full` is the
complete split key list: on the first failing segment the source walks
the default language over the FULL list and returns, so the loop body
needs it. -/
def translateGo (st : I18nState) (full : List String) (fb : Json) (key : String) :
    List String → Json → Json
  | [], value => value
  | k :: rest, value =>
    match jsGetStep value k with
    | some v => translateGo st full fb key rest v
    | none =>
      if st.currentLang != some st.defaultLanguage
          && optJsonTruthy (getTranslations st st.defaultLanguage) then
        match getTranslations st st.defaultLanguage with
        | some d =>
          match walkJson d full with
          | some dv => dv
          | none => jsOr fb (.str key)
        | none => jsOr fb (.str key)
      else jsOr fb (.str key)

/-- `I18nManager.translate(key, fallback)`.  The fallback argument is an
arbitrary JS value (callers pass arrays); the source default is `''`. -/
def translate (st : I18nState) (key : String) (fb : Json) : Json :=
  if !(optStrTruthy st.currentLang && optJsonTruthy (currentTranslations st)) then
    jsOr fb (.str key)
  else
    match currentTranslations st with
    | some t => translateGo st (jsSplitDot key) fb key (jsSplitDot key) t
    | none => jsOr fb (.str key)

/-- The default-language fallback expression shared by the failing
branches of the translate loop. -/
def translateFallback (st : I18nState) (full : List String) (fb : Json) (key : String) : Json :=
  if st.currentLang != some st.defaultLanguage
      && optJsonTruthy (getTranslations st st.defaultLanguage) then
    match getTranslations st st.defaultLanguage with
    | some d =>
      match walkJson d full with
      | some dv => dv
      | none => jsOr fb (.str key)
    | none => jsOr fb (.str key)
  else jsOr fb (.str key)

/-- Recognizer for string results (JS `typeof v === 'string'`). -/
def isStringJson : Json → Bool
  | .str _ => true
  | _ => false

/-- A sample loaded state: English current language, Portuguese default,
both locale files loaded. -/
def sampleTranslationsEn : Json :=
  .obj [("nav", .obj [("home", .str "Home"), ("about", .str "About")])]

def sampleTranslationsPt : Json :=
  .obj [("nav", .obj [("home", .str "Inicio"), ("about", .str "Sobre")])]

def sampleI18nState : I18nState :=
  { currentLang := some "en-US"
    translations := [("pt-BR", sampleTranslationsPt), ("en-US", sampleTranslationsEn)]
    defaultLanguage := "pt-BR" }

/-- A loaded state whose locale file stores a subtree (not a string) at
the key `meta`, as the real locale files do. -/
def metaTranslationsEn : Json :=
  .obj [("meta", .obj [("title", .str "Portfolio")])]

def metaI18nState : I18nState :=
  { currentLang := some "en-US"
    translations := [("en-US", metaTranslationsEn)]
    defaultLanguage := "pt-BR" }

/-! ## Service worker

The caching layer of `sw.js`: cache names, asset lists, the fetch-event
dispatch, and the `cacheFirst` / `networkFirst` / `limitCacheSize`
functions.  Strings are compared with executable character-list
primitives so that concrete requests evaluate. -/

/-- JS `s.startsWith(pre)`. -/
def strStartsWith (s pre : String) : Bool := pre.data.isPrefixOf s.data

/-- JS `s.endsWith(suf)`. -/
def strEndsWith (s suf : String) : Bool := suf.data.isSuffixOf s.data

/-- Index of the leftmost occurrence of `pat` in `s` (JS `indexOf`). -/
def findFirst : List Char → List Char → Option Nat
  | [], pat => if pat.isPrefixOf ([] : List Char) then some 0 else none
  | x :: tl, pat =>
    if pat.isPrefixOf (x :: tl) then some 0
    else (findFirst tl pat).map (fun n => n + 1)

/-- JS `s.includes(sub)`. -/
def strContains (s sub : String) : Bool := (findFirst s.data sub.data).isSome

def CACHE_VERSION : String := "v2.1.0"
def CACHE_NAME : String := "devportfolio-" ++ CACHE_VERSION
def CACHE_NAME_DYNAMIC : String := "devportfolio-dynamic-" ++ CACHE_VERSION
def CACHE_NAME_IMAGES : String := "devportfolio-images-" ++ CACHE_VERSION

def STATIC_ASSETS : List String :=
  ["/", "/index.html", "/offline.html", "/manifest.json",
   "/css/themes.css", "/css/animations.css", "/css/style.css", "/css/responsive-fixes.css",
   "/js/app.js", "/js/i18n.js", "/js/animation-controller.js", "/js/lazy-loader.js",
   "/js/project-data.js", "/js/project-modal.js", "/js/form-handler.js",
   "/js/performance-monitor.js", "/js/polyfills.js", "/js/config.js", "/js/analytics.js",
   "/img/favicon.svg", "/img/profile.svg"]

def DYNAMIC_ASSETS : List String :=
  ["/locales/pt-BR.json", "/locales/en-US.json", "/locales/es-ES.json"]

def IMAGE_ASSETS : List String :=
  ["/img/about.svg", "/img/project1.svg", "/img/project2.svg", "/img/project3.svg",
   "/img/project4.svg", "/img/project5.svg", "/img/project6.svg"]

def EXTERNAL_ASSETS : List String :=
  ["https://cdnjs.cloudflare.com/ajax/libs/font-awesome/6.4.0/css/all.min.css",
   "https://fonts.googleapis.com/css2?family=Poppins:wght@300;400;500;600;700&family=Roboto+Mono:wght@300;400;500;600&display=swap"]

structure MaxCacheSize where
  images : Nat
  dynamic : Nat

def MAX_CACHE_SIZE : MaxCacheSize := { images := 50, dynamic := 30 }

/-- The parts of a fetch-event request the handler reads: the method,
the `URL` fields of `request.url`, and the request's destination and
mode. -/
structure Request where
  method : String
  protocol : String
  pathname : String
  href : String
  destination : String
  mode : String

/-- The named response strategies of the fetch handler. -/
inductive Strategy where
  | cacheFirst (cacheName : String)
  | networkFirst (cacheName : String)
  | networkOnly
  deriving DecidableEq

/-- The regex test `/\.(jpg|jpeg|png|gif|svg|webp)$/` on a pathname. -/
def imageExtMatch (pathname : String) : Bool :=
  [".jpg", ".jpeg", ".png", ".gif", ".svg", ".webp"].any
    (fun e => strEndsWith pathname e)

/-- The fetch-event listener's dispatch: which strategy (if any) the
handler responds with for a request.  `none` models the early returns
(non-GET, non-http) that leave the request to the browser. -/
def fetchDispatch (req : Request) : Option Strategy :=
  if req.method != "GET" then none
  else if !(strStartsWith req.protocol "http") then none
  else if STATIC_ASSETS.any (fun a => req.pathname == a)
      || EXTERNAL_ASSETS.any (fun a => req.href == a) then
    some (.cacheFirst CACHE_NAME)
  else if DYNAMIC_ASSETS.any (fun a => req.pathname == a) then
    some (.networkFirst CACHE_NAME_DYNAMIC)
  else if req.destination == "image" || imageExtMatch req.pathname then
    some (.cacheFirst CACHE_NAME_IMAGES)
  else if strContains req.pathname "/api/" || req.method == "POST" then
    some .networkOnly
  else some (.networkFirst CACHE_NAME_DYNAMIC)

/-- A response, with the fields the service worker reads or builds. -/
structure Response where
  status : Nat
  statusText : String
  contentType : String
  body : String
  deriving DecidableEq

/-- One cache: entries keyed by request URL, oldest first (the order
`cache.keys()` reports). -/
abbrev Cache := List (String × Response)

/-- The CacheStorage: named caches in creation order. -/
abbrev CacheStore := List (String × Cache)

/-- `cache.match(url)` inside a single cache. -/
def cacheMatchIn (c : Cache) (url : String) : Option Response :=
  (c.find? (fun e => e.1 == url)).map Prod.snd

/-- `caches.match(url)`: first match across all caches in order. -/
def cachesMatch : CacheStore → String → Option Response
  | [], _ => none
  | nc :: rest, url =>
    match cacheMatchIn nc.2 url with
    | some r => some r
    | none => cachesMatch rest url

/-- `caches.open(name)` viewed as a lookup (a missing cache is empty). -/
def openCache (cs : CacheStore) (name : String) : Cache :=
  ((cs.find? (fun p => p.1 == name)).map Prod.snd).getD []

/-- `cache.put(url, r)`: any entry for the same URL is overwritten; the
entry becomes the newest (last) one. -/
def cachePutIn (c : Cache) (url : String) (r : Response) : Cache :=
  c.filter (fun e => e.1 != url) ++ [(url, r)]

/-- `cache.delete(url)`. -/
def cacheDeleteIn (c : Cache) (url : String) : Cache :=
  c.filter (fun e => e.1 != url)

/-- Put into a named cache of the store, creating the cache if needed. -/
def storePut (cs : CacheStore) (name url : String) (r : Response) : CacheStore :=
  if cs.any (fun p => p.1 == name) then
    cs.map (fun p => if p.1 == name then (p.1, cachePutIn p.2 url r) else p)
  else cs ++ [(name, cachePutIn [] url r)]

/-- `limitCacheSize(cacheName, maxSize)` on one cache: when the key list
exceeds `maxSize`, delete the first `keys.length - maxSize` keys. -/
def limitCacheSize (c : Cache) (maxSize : Nat) : Cache :=
  let keys := c.map Prod.fst
  if keys.length > maxSize then
    (keys.take (keys.length - maxSize)).foldl cacheDeleteIn c
  else c

/-- `limitCacheSize` at the store level. -/
def storeLimit (cs : CacheStore) (name : String) (maxSize : Nat) : CacheStore :=
  cs.map (fun p => if p.1 == name then (p.1, limitCacheSize p.2 maxSize) else p)

/-- The synthesized offline response
(`new Response('Offline - content not available', 503, text/plain)`). -/
def offlineResponse : Response :=
  { status := 503
    statusText := "Service Unavailable"
    contentType := "text/plain"
    body := "Offline - content not available" }

/-- The shared failure tail of both strategies: for navigation requests
return the cached `/offline.html` when present, otherwise the
synthesized 503 response. -/
def offlineFallback (req : Request) (cs : CacheStore) : Response :=
  if req.mode == "navigate" then
    match cachesMatch cs "/offline.html" with
    | some off => off
    | none => offlineResponse
  else offlineResponse

/-- `cacheFirst(request, cacheName)`.  The network is an input: `some r`
for a fetch that resolves with `r`, `none` for a fetch that throws.  The
result is the returned response and the cache storage afterwards. -/
def cacheFirst (req : Request) (cacheName : String) (cs : CacheStore)
    (net : Option Response) : Response × CacheStore :=
  match cachesMatch cs req.href with
  | some r => (r, cs)
  | none =>
    match net with
    | some resp =>
      if resp.status == 200 then
        let cs1 := storePut cs cacheName req.href resp
        let cs2 :=
          if cacheName == CACHE_NAME_IMAGES then
            storeLimit cs1 cacheName MAX_CACHE_SIZE.images
          else cs1
        (resp, cs2)
      else (resp, cs)
    | none =>
      match cachesMatch cs req.href with
      | some r => (r, cs)
      | none => (offlineFallback req cs, cs)

/-- `networkFirst(request, cacheName)`, same conventions. -/
def networkFirst (req : Request) (cacheName : String) (cs : CacheStore)
    (net : Option Response) : Response × CacheStore :=
  match net with
  | some resp =>
    if resp.status == 200 then
      let cs1 := storePut cs cacheName req.href resp
      let cs2 :=
        if cacheName == CACHE_NAME_DYNAMIC then
          storeLimit cs1 cacheName MAX_CACHE_SIZE.dynamic
        else cs1
      (resp, cs2)
    else (resp, cs)
  | none =>
    match cachesMatch cs req.href with
    | some r => (r, cs)
    | none => (offlineFallback req cs, cs)

/-- A GET http request for an image that is in none of the URL lists. -/
def imgReq : Request :=
  { method := "GET"
    protocol := "https:"
    pathname := "/img/about.svg"
    href := "https://careca.is-a.dev/img/about.svg"
    destination := "image"
    mode := "no-cors" }

/-- A GET http request for a locale file (a DYNAMIC asset). -/
def localeReq : Request :=
  { method := "GET"
    protocol := "https:"
    pathname := "/locales/pt-BR.json"
    href := "https://careca.is-a.dev/locales/pt-BR.json"
    destination := ""
    mode := "cors" }

/-- A three-entry image cache. -/
def threeEntryCache : Cache :=
  [("/img/a.svg", offlineResponse), ("/img/b.svg", offlineResponse),
   ("/img/c.svg", offlineResponse)]

/-- An empty cache storage and a sample OK response, for the witnesses. -/
def emptyStore : CacheStore := []

def okResponse : Response :=
  { status := 200, statusText := "OK", contentType := "text/css", body := "body" }

/-- A navigation request to an uncached page. -/
def navReq : Request :=
  { method := "GET"
    protocol := "https:"
    pathname := "/missing.html"
    href := "https://careca.is-a.dev/missing.html"
    destination := "document"
    mode := "navigate" }

/-! ## applyTranslations (C10)

The per-element effect of `I18nManager.applyTranslations`: the
`querySelectorAll('[data-i18n]')` loop applies the body below to each
element; an element is its attribute list and its list of child nodes
(what the source reads through `children` and `childNodes`). -/

inductive DomNode where
  | text (content : String)
  | elem (attrs : List (String × String)) (children : List DomNode)

def getAttribute (attrs : List (String × String)) (name : String) : Option String :=
  (attrs.find? (fun a => a.1 == name)).map Prod.snd

def setAttribute (attrs : List (String × String)) (name v : String) :
    List (String × String) :=
  if attrs.any (fun a => a.1 == name) then
    attrs.map (fun a => if a.1 == name then (a.1, v) else a)
  else attrs ++ [(name, v)]

def isTextNode : DomNode → Bool
  | .text _ => true
  | .elem _ _ => false

def isElementNode : DomNode → Bool
  | .elem _ _ => true
  | .text _ => false

/-- Overwrite the content of the first text node, leaving every other
node in place (the net effect of `textNodes[0].textContent = t`). -/
def setFirstTextNode : List DomNode → String → List DomNode
  | [], _ => []
  | .text _ :: rest, s => .text s :: rest
  | n :: rest, s => n :: setFirstTextNode rest s

/-- JS strict equality `v === key` against a string key: value equality
for strings, always false for every other runtime type. -/
def jsStrictEqStr : Json → String → Bool
  | .str s, k => s == k
  | _, _ => false

def isNullJson : Json → Bool
  | .null => true
  | _ => false

/-- JS string coercion as used by `setAttribute` / `textContent`
assignment (array elements `null` join as empty, arrays join with
commas, objects print as `[object Object]`). -/
def jsToString : Json → String
  | .str s => s
  | .num n => toString n
  | .bool b => cond b "true" "false"
  | .null => "null"
  | .obj _ => "[object Object]"
  | .arr [] => ""
  | .arr (x :: xs) =>
      (if isNullJson x then "" else jsToString x) ++
      (if xs.isEmpty then "" else "," ++ jsToString (.arr xs))

/-- The `else` block of the `if (attr)` test: update the element's text
content — replace all child nodes when there are no child elements,
otherwise overwrite the first text node (if any). -/
def applyTextUpdate (translation : Json) (attrs : List (String × String))
    (childNodes : List DomNode) : List (String × String) × List DomNode :=
  if (childNodes.filter isElementNode).isEmpty then
    (attrs,
      if jsToString translation == "" then []
      else [DomNode.text (jsToString translation)])
  else
    if (childNodes.filter isTextNode).isEmpty then (attrs, childNodes)
    else (attrs, setFirstTextNode childNodes (jsToString translation))

/-- The body of the `elements.forEach` loop of `applyTranslations`,
acting on one element with a `data-i18n` attribute.  The attribute
branch is guarded by JS truthiness of `getAttribute('data-i18n-attr')`:
an absent attribute (`null`) and a present-but-empty one (`''`) are both
falsy and fall through to the text-content update. -/
def applyTranslationsElem (st : I18nState) (attrs : List (String × String))
    (childNodes : List DomNode) : List (String × String) × List DomNode :=
  match getAttribute attrs "data-i18n" with
  | none => (attrs, childNodes)
  | some key =>
    let translation := translate st key (.str "")
    if jsTruthy translation && !(jsStrictEqStr translation key) then
      match getAttribute attrs "data-i18n-attr" with
      | some attr =>
        if attr != "" then (setAttribute attrs attr (jsToString translation), childNodes)
        else applyTextUpdate translation attrs childNodes
      | none => applyTextUpdate translation attrs childNodes
    else (attrs, childNodes)

/-- Content of the first text node, if any. -/
def firstTextContent : List DomNode → Option String
  | [] => none
  | .text s :: _ => some s
  | _ :: rest => firstTextContent rest

/-- Sample state and element for settling C10: the translation of
`greet` is the non-empty string `Hello`, different from the key. -/
def elemI18nState : I18nState :=
  { currentLang := some "en-US"
    translations := [("en-US", .obj [("greet", .str "Hello")])]
    defaultLanguage := "en-US" }

def attrTargetAttrs : List (String × String) :=
  [("data-i18n", "greet"), ("data-i18n-attr", "title")]

def mixedChildren : List DomNode :=
  [DomNode.elem [] [], DomNode.text "old"]

def textTargetAttrs : List (String × String) := [("data-i18n", "greet")]

/-! ## FormHandler (C6)

`FormHandler.submitForm` routes a validated submission by
`options.emailService`; `submitToFormSubmit` posts the collected field
values to the FormSubmit relay and reports `response.ok`. -/

/-- The options `submitForm` / `submitToFormSubmit` read. -/
structure FormHandlerOptions where
  emailService : String
  emailServiceConfigEmail : Option String

/-- The three branches of `submitForm`'s service dispatch. -/
inductive SubmissionRoute where
  | formsubmit
  | emailjs
  | custom
  deriving DecidableEq

/-- The `if / else if / else` on `this.options.emailService`. -/
def submitRoute (opts : FormHandlerOptions) : SubmissionRoute :=
  if opts.emailService == "formsubmit" then .formsubmit
  else if opts.emailService == "emailjs" then .emailjs
  else .custom

/-- An outgoing HTTP request as `fetch(endpoint, ...)` issues it. -/
structure HttpRequest where
  url : String
  method : String
  formBody : List (String × String)
  acceptHeader : String

/-- A fetch response as the handler reads it (`response.ok`). -/
structure FetchResponse where
  ok : Bool

/-- JS `s || dflt` on strings. -/
def strOr (s dflt : String) : String := if s == "" then dflt else s

/-- JS `opt || dflt` on a possibly-undefined string. -/
def optStrOr (s : Option String) (dflt : String) : String :=
  match s with
  | some v => strOr v dflt
  | none => dflt

/-- The single request `submitToFormSubmit` constructs: form fields in
collection order followed by the `_subject`, `_captcha` and `_template`
FormSubmit configuration fields, posted to the relay endpoint for the
configured address. -/
def formSubmitRequest (opts : FormHandlerOptions) (formData : List (String × String)) :
    HttpRequest :=
  let email := optStrOr opts.emailServiceConfigEmail "vitorjacquesdev@gmail.com"
  let endpoint := "https://formsubmit.co/" ++ email
  let subject :=
    optStrOr ((formData.find? (fun p => p.1 == "subject")).map Prod.snd)
      "New Portfolio Contact"
  { url := endpoint
    method := "POST"
    formBody := formData ++ [("_subject", subject), ("_captcha", "false"), ("_template", "table")]
    acceptHeader := "application/json" }

/-- `submitToFormSubmit(formData)` against a network behaviour `net`:
the fetch of the constructed request resolves to `net request`, and the
function returns `response.ok`. -/
def submitToFormSubmit (opts : FormHandlerOptions) (formData : List (String × String))
    (net : HttpRequest → FetchResponse) : Bool :=
  (net (formSubmitRequest opts formData)).ok

/-- A concrete validated submission and an always-ok network. -/
def contactOpts : FormHandlerOptions :=
  { emailService := "formsubmit", emailServiceConfigEmail := some "vitorjacquesdev@gmail.com" }

def contactData : List (String × String) :=
  [("name", "Ada"), ("email", "ada@example.com"), ("subject", "Hi"), ("message", "Hello")]

def okNet : HttpRequest → FetchResponse := fun _ => { ok := true }

/-! ## build.js (C5)

The asset pipeline of the build script: minify each configured file,
write it under a name embedding the first 8 hex digits of the MD5 of the
minified content, and rewrite every occurrence of the original path in
`index.html` to the hashed path.  The MD5 hex digest of the `crypto`
library is an abstract parameter `md5hex`, and the minifier is the
function parameter `processAssets` already takes in the source. -/

def splitSlash (p : String) : List String :=
  (splitOnChar '/' p.data).map (fun l => ⟨l⟩)

/-- `path.basename(p)` (the part after the last slash). -/
def basenameFull (p : String) : String := (splitSlash p).getLastD ""

/-- `path.extname(p)`: from the last dot of the basename; empty for
dotless names and for pure dotfiles. -/
def extname (p : String) : String :=
  match splitOnChar '.' (basenameFull p).data with
  | [] => ""
  | [_] => ""
  | first :: rest =>
    if first.isEmpty && rest.length == 1 then ""
    else "." ++ (⟨rest.getLastD []⟩ : String)

def joinSlash : List String → String
  | [] => ""
  | [x] => x
  | x :: xs => x ++ "/" ++ joinSlash xs

/-- `path.dirname(p)`. -/
def dirname (p : String) : String :=
  let parts := splitSlash p
  if parts.length ≤ 1 then "." else joinSlash parts.dropLast

def strDropRight (s : String) (n : Nat) : String :=
  ⟨s.data.take (s.data.length - n)⟩

/-- `path.basename(p, ext)`: additionally strips a trailing `ext`. -/
def basename (p ext : String) : String :=
  let b := basenameFull p
  if ext != "" && strEndsWith b ext && b != ext then strDropRight b ext.data.length
  else b

def strTake (s : String) (n : Nat) : String := ⟨s.data.take n⟩

/-- `path.posix.join` restricted to the shapes the build uses. -/
def posixJoin (dir name : String) : String :=
  if dir == "." || dir == "" then name else dir ++ "/" ++ name

/-- `generateHash(content)`: first 8 hex digits of the MD5 digest. -/
def generateHash (md5hex : String → String) (content : String) : String :=
  strTake (md5hex content) 8

/-- `createHashedFile`: the dist-relative hashed path `base.HASH.ext`
under the original directory (the write of `content` to that path is
recorded by `processAssets`). -/
def createHashedFile (md5hex : String → String) (relativeFilePath content : String) : String :=
  let dir := dirname relativeFilePath
  let ext := extname relativeFilePath
  let base := basename relativeFilePath ext
  let hash := generateHash md5hex content
  posixJoin dir (base ++ "." ++ hash ++ ext)

/-- The `files.forEach` loop of `processAssets`: for each file that
reads successfully, minify, write the hashed file, and record the
original-to-hashed entry; read failures are logged and skipped.  Returns
the asset map (original path, hashed path) and the writes performed
(hashed path, written content), both in file order. -/
def processAssetsGo (readFile : String → Option String) (minifier md5hex : String → String) :
    List String → List (String × String) × List (String × String)
  | [] => ([], [])
  | file :: rest =>
    let r := processAssetsGo readFile minifier md5hex rest
    match readFile file with
    | some source =>
      let optimized := minifier source
      let outputFile := createHashedFile md5hex file optimized
      ((file, outputFile) :: r.1, (outputFile, optimized) :: r.2)
    | none => r

def processAssets (readFile : String → Option String) (minifier md5hex : String → String)
    (files : List String) : List (String × String) × List (String × String) :=
  processAssetsGo readFile minifier md5hex files

def cssFiles : List String :=
  ["css/themes.css", "css/animations.css", "css/style.css",
   "css/responsive-fixes.css", "css/performance-optimizations.css"]

def jsFiles : List String :=
  ["js/config.js", "js/polyfills.js", "js/i18n.js", "js/animation-controller.js",
   "js/lazy-loader.js", "js/performance-monitor.js", "js/analytics.js",
   "js/project-data.js", "js/project-modal.js", "js/form-handler.js", "js/app.js"]

/-- JS `String.prototype.replaceAll` on character lists: repeatedly
replace the leftmost occurrence and continue after the replacement.  The
fuel starts above the string length, enough for every non-empty
pattern. -/
def replaceAllAux (pat rep : List Char) : Nat → List Char → List Char
  | 0, s => s
  | fuel + 1, s =>
    match findFirst s pat with
    | none => s
    | some i => s.take i ++ rep ++ replaceAllAux pat rep fuel (s.drop (i + pat.length))

def jsReplaceAllL (s pat rep : List Char) : List Char :=
  replaceAllAux pat rep (s.length + 1) s

def jsReplaceAll (s pat rep : String) : String :=
  ⟨jsReplaceAllL s.data pat.data rep.data⟩

/-- The asset-rewriting loop of `processIndexHtml`:
`html.replaceAll(originalPath, hashedPath)` over the asset map entries in
order (the preceding meta-tag substitutions touch only meta tags and are
not modelled). -/
def rewriteAssetPaths (html : String) (assetMap : List (String × String)) : String :=
  assetMap.foldl (fun h e => jsReplaceAll h e.1 e.2) html

/-- A concrete read function for two CSS files, and a fixed 32-digit
stand-in for the MD5 hex digest. -/
def twoCssRead : String → Option String := fun f =>
  if f == "css/a.css" then some "AAAA"
  else if f == "css/b.css" then some "BBBB"
  else none

def constHash : String → String := fun _ => "0123456789abcdef0123456789abcdef"

/-! ## Theorems -/

theorem translateGo_walk (st : I18nState) (full : List String) (fb : Json) (key : String) :
    ∀ (rest : List String) (value : Json),
      translateGo st full fb key rest value =
        match walkJson value rest with
        | some v => v
        | none => translateFallback st full fb key := by
  intro rest
  induction rest with
  | nil => intro value; simp [translateGo, walkJson]
  | cons k ks ih =>
    intro value
    simp only [translateGo, walkJson]
    cases h : jsGetStep value k with
    | some v => simp [ih]
    | none => simp [translateFallback]

/-- C1: for every dotted key and every loaded current language,
`translate` splits the key on `'.'` and walks the current language's
parsed translations; a fully successful walk returns the value found
there; otherwise, when the current language is not the default language
and the default language's translations are loaded, a successful walk
there returns the default-language value; otherwise the result is the
fallback when it is non-empty and the key itself when it is empty. -/
theorem translate_dotted_lookup (st : I18nState) (lang : String) (t : Json) (key fb : String)
    (hl : st.currentLang = some lang) (hlne : lang ≠ "")
    (ht : currentTranslations st = some t) (htt : jsTruthy t = true) :
    translate st key (.str fb) =
      match walkJson t (jsSplitDot key) with
      | some v => v
      | none =>
        if lang ≠ st.defaultLanguage ∧
            optJsonTruthy (getTranslations st st.defaultLanguage) = true then
          match getTranslations st st.defaultLanguage with
          | some d =>
            match walkJson d (jsSplitDot key) with
            | some dv => dv
            | none => if fb ≠ "" then .str fb else .str key
          | none => if fb ≠ "" then .str fb else .str key
        else if fb ≠ "" then .str fb else .str key := by
  have hguard : (optStrTruthy st.currentLang && optJsonTruthy (currentTranslations st)) = true := by
    rw [hl, ht]
    simp [optStrTruthy, optJsonTruthy, htt, hlne]
  have hfb : jsOr (.str fb) (.str key) = if fb ≠ "" then Json.str fb else Json.str key := by
    by_cases h : fb = "" <;> simp [jsOr, jsTruthy, h]
  rw [translate, hguard, ht]
  simp only [Bool.not_true, Bool.false_eq_true, if_false]
  rw [translateGo_walk]
  cases hw : walkJson t (jsSplitDot key) with
  | some v => simp
  | none =>
    simp only [translateFallback, hl]
    by_cases hd : lang = st.defaultLanguage
    · simp [hd, hfb]
    · have : ((some lang != some st.defaultLanguage) : Bool) = true := by
        simp [bne, hd]
      rw [this]
      cases hdt : optJsonTruthy (getTranslations st st.defaultLanguage) with
      | false => simp [hdt, hd, hfb]
      | true =>
        simp only [Bool.true_and, if_true]
        cases hg : getTranslations st st.defaultLanguage with
        | none => simp [optJsonTruthy, hg] at hdt
        | some d => simp [hd, hfb]

theorem translate_dotted_lookup_witness :
    translate sampleI18nState "nav.home" (.str "") = Json.str "Home" :=
  (translate_dotted_lookup sampleI18nState "en-US" sampleTranslationsEn "nav.home" ""
    rfl (by decide) rfl rfl).trans rfl

/-- C8 counterexample: the dotted key `meta` resolves successfully in the
current locale, yet `translate` returns an object, not a string. -/
theorem translate_nonstring_counterexample :
    walkJson metaTranslationsEn (jsSplitDot "meta") =
      some (Json.obj [("title", .str "Portfolio")]) ∧
    translate metaI18nState "meta" (.str "") =
      Json.obj [("title", .str "Portfolio")] ∧
    isStringJson (translate metaI18nState "meta" (.str "")) = false :=
  ⟨rfl, rfl, rfl⟩

/-- C8 (amended): a successful full-segment walk returns exactly the JSON
value stored at that path, so the result is a string precisely when the
locale file maps the dotted key to a string; `translate` itself does not
force the result to be a string. -/
theorem translate_successful_lookup_value (st : I18nState) (lang : String) (t : Json)
    (key : String) (fb : Json) (v : Json)
    (hl : st.currentLang = some lang) (hlne : lang ≠ "")
    (ht : currentTranslations st = some t) (htt : jsTruthy t = true)
    (hw : walkJson t (jsSplitDot key) = some v) :
    translate st key fb = v ∧
    (isStringJson (translate st key fb) = true ↔ isStringJson v = true) := by
  have hguard : (optStrTruthy st.currentLang && optJsonTruthy (currentTranslations st)) = true := by
    rw [hl, ht]
    simp [optStrTruthy, optJsonTruthy, htt, hlne]
  have heq : translate st key fb = v := by
    rw [translate, hguard, ht]
    simp only [Bool.not_true, Bool.false_eq_true, if_false]
    rw [translateGo_walk, hw]
  exact ⟨heq, by rw [heq]⟩

theorem translate_successful_lookup_value_witness :
    translate sampleI18nState "nav.about" (.str "") = Json.str "About" ∧
    (isStringJson (translate sampleI18nState "nav.about" (.str "")) = true ↔
      isStringJson (Json.str "About") = true) :=
  translate_successful_lookup_value sampleI18nState "en-US" sampleTranslationsEn
    "nav.about" (.str "") (Json.str "About") rfl (by decide) rfl rfl rfl

/-- C2 counterexample: a GET http(s) request whose URL belongs to none of
the STATIC/EXTERNAL/DYNAMIC lists and is not an API path is nevertheless
dispatched to a strategy (image cache-first), chosen by the request's
destination / file extension — a dispatch criterion beyond list
membership. -/
theorem fetchDispatch_counterexample :
    fetchDispatch imgReq = some (Strategy.cacheFirst CACHE_NAME_IMAGES) ∧
    STATIC_ASSETS.any (fun a => imgReq.pathname == a) = false ∧
    EXTERNAL_ASSETS.any (fun a => imgReq.href == a) = false ∧
    DYNAMIC_ASSETS.any (fun a => imgReq.pathname == a) = false ∧
    strContains imgReq.pathname "/api/" = false :=
  ⟨rfl, rfl, rfl, rfl, rfl⟩

/-- C2 (amended): every GET request with an http(s) URL is answered by
exactly one of the three named strategies, but the dispatch is the full
conditional of the listener: STATIC/EXTERNAL membership selects
cache-first into the static cache; DYNAMIC membership selects
network-first; an image destination or image file extension selects
cache-first into the image cache; `/api/` paths select network-only; and
every remaining request defaults to network-first. -/
theorem fetchDispatch_cases (req : Request)
    (hm : req.method = "GET") (hp : strStartsWith req.protocol "http" = true) :
    (∃ s, fetchDispatch req = some s) ∧
    (fetchDispatch req = some (.cacheFirst CACHE_NAME) ↔
      (STATIC_ASSETS.any (fun a => req.pathname == a)
        || EXTERNAL_ASSETS.any (fun a => req.href == a)) = true) ∧
    (fetchDispatch req = some (.networkFirst CACHE_NAME_DYNAMIC) ↔
      ((STATIC_ASSETS.any (fun a => req.pathname == a)
        || EXTERNAL_ASSETS.any (fun a => req.href == a)) = false ∧
       (DYNAMIC_ASSETS.any (fun a => req.pathname == a) = true ∨
        ((req.destination == "image" || imageExtMatch req.pathname) = false ∧
         strContains req.pathname "/api/" = false)))) ∧
    (fetchDispatch req = some (.cacheFirst CACHE_NAME_IMAGES) ↔
      ((STATIC_ASSETS.any (fun a => req.pathname == a)
        || EXTERNAL_ASSETS.any (fun a => req.href == a)) = false ∧
       DYNAMIC_ASSETS.any (fun a => req.pathname == a) = false ∧
       (req.destination == "image" || imageExtMatch req.pathname) = true)) ∧
    (fetchDispatch req = some .networkOnly ↔
      ((STATIC_ASSETS.any (fun a => req.pathname == a)
        || EXTERNAL_ASSETS.any (fun a => req.href == a)) = false ∧
       DYNAMIC_ASSETS.any (fun a => req.pathname == a) = false ∧
       (req.destination == "image" || imageExtMatch req.pathname) = false ∧
       strContains req.pathname "/api/" = true)) := by
  have h0 : (req.method != "GET") = false := by simp [hm]
  have hpost : (req.method == "POST") = false := by simp [hm]
  have hCN : ¬ (CACHE_NAME = CACHE_NAME_IMAGES) := by decide
  have hCN2 : ¬ (CACHE_NAME_IMAGES = CACHE_NAME) := by decide
  cases h1 : (STATIC_ASSETS.any (fun a => req.pathname == a)
      || EXTERNAL_ASSETS.any (fun a => req.href == a)) <;>
    cases h2 : DYNAMIC_ASSETS.any (fun a => req.pathname == a) <;>
      cases h3 : (req.destination == "image" || imageExtMatch req.pathname) <;>
        cases h4 : strContains req.pathname "/api/" <;>
          simp [fetchDispatch, h0, hp, h1, h2, h3, h4, hpost, hCN, hCN2]

theorem fetchDispatch_cases_witness :
    (∃ s, fetchDispatch localeReq = some s) ∧
    (fetchDispatch localeReq = some (.cacheFirst CACHE_NAME) ↔
      (STATIC_ASSETS.any (fun a => localeReq.pathname == a)
        || EXTERNAL_ASSETS.any (fun a => localeReq.href == a)) = true) ∧
    (fetchDispatch localeReq = some (.networkFirst CACHE_NAME_DYNAMIC) ↔
      ((STATIC_ASSETS.any (fun a => localeReq.pathname == a)
        || EXTERNAL_ASSETS.any (fun a => localeReq.href == a)) = false ∧
       (DYNAMIC_ASSETS.any (fun a => localeReq.pathname == a) = true ∨
        ((localeReq.destination == "image" || imageExtMatch localeReq.pathname) = false ∧
         strContains localeReq.pathname "/api/" = false)))) ∧
    (fetchDispatch localeReq = some (.cacheFirst CACHE_NAME_IMAGES) ↔
      ((STATIC_ASSETS.any (fun a => localeReq.pathname == a)
        || EXTERNAL_ASSETS.any (fun a => localeReq.href == a)) = false ∧
       DYNAMIC_ASSETS.any (fun a => localeReq.pathname == a) = false ∧
       (localeReq.destination == "image" || imageExtMatch localeReq.pathname) = true)) ∧
    (fetchDispatch localeReq = some .networkOnly ↔
      ((STATIC_ASSETS.any (fun a => localeReq.pathname == a)
        || EXTERNAL_ASSETS.any (fun a => localeReq.href == a)) = false ∧
       DYNAMIC_ASSETS.any (fun a => localeReq.pathname == a) = false ∧
       (localeReq.destination == "image" || imageExtMatch localeReq.pathname) = false ∧
       strContains localeReq.pathname "/api/" = true)) :=
  fetchDispatch_cases localeReq rfl rfl

/-! ### limitCacheSize (C9) -/

theorem cacheDeleteIn_of_not_mem (c : Cache) (k : String)
    (h : ∀ e ∈ c, e.1 ≠ k) : cacheDeleteIn c k = c := by
  unfold cacheDeleteIn
  rw [List.filter_eq_self]
  intro e he
  simpa using h e he

theorem deleteKeys_prefix :
    ∀ (c : Cache) (j : Nat), (c.map Prod.fst).Nodup →
      ((c.map Prod.fst).take j).foldl cacheDeleteIn c = c.drop j := by
  intro c
  induction c with
  | nil => intro j _; simp
  | cons e tl ih =>
    intro j h
    cases j with
    | zero => simp
    | succ j' =>
      simp only [List.map_cons, List.take_succ_cons, List.foldl_cons, List.drop_succ_cons]
      have hnm : e.1 ∉ tl.map Prod.fst := by
        simpa using (List.nodup_cons.mp h).1
      have hnd : (tl.map Prod.fst).Nodup := (List.nodup_cons.mp h).2
      have hdel : cacheDeleteIn (e :: tl) e.1 = tl := by
        unfold cacheDeleteIn
        simp only [List.filter_cons]
        have hself : (e.1 != e.1) = false := by simp
        rw [hself]
        simp only [Bool.false_eq_true, if_false]
        rw [List.filter_eq_self]
        intro a ha
        have : a.1 ≠ e.1 := fun hxe => hnm (hxe ▸ List.mem_map_of_mem Prod.fst ha)
        simpa using this
      rw [hdel]
      exact ih j' hnd

/-- C9: after `limitCacheSize` the cache holds at most `maxSize` entries,
and what was deleted is exactly the run of oldest (first-listed) keys
needed to reach the bound — the remaining suffix is unchanged. -/
theorem limitCacheSize_spec (c : Cache) (m : Nat) (h : (c.map Prod.fst).Nodup) :
    limitCacheSize c m = c.drop (c.length - m) ∧
    (limitCacheSize c m).length ≤ m := by
  have hlen : (c.map Prod.fst).length = c.length := List.length_map c Prod.fst
  unfold limitCacheSize
  by_cases hgt : (c.map Prod.fst).length > m
  · simp only [hgt, if_true]
    rw [hlen, deleteKeys_prefix c (c.length - m) h]
    refine ⟨rfl, ?_⟩
    rw [List.length_drop]
    omega
  · simp only [hgt, if_false]
    have : c.length ≤ m := by omega
    constructor
    · rw [Nat.sub_eq_zero_of_le this, List.drop_zero]
    · exact this

theorem limitCacheSize_spec_witness :
    limitCacheSize threeEntryCache 2 = threeEntryCache.drop (threeEntryCache.length - 2) ∧
    (limitCacheSize threeEntryCache 2).length ≤ 2 :=
  limitCacheSize_spec threeEntryCache 2 (by decide)

/-! ### cacheFirst / networkFirst (C3, C4, C7) -/

theorem cacheMatchIn_append_last (l : Cache) (url : String) (r : Response)
    (h : ∀ e ∈ l, (e.1 == url) = false) :
    cacheMatchIn (l ++ [(url, r)]) url = some r := by
  induction l with
  | nil => simp [cacheMatchIn]
  | cons e tl ih =>
    have he := h e (List.mem_cons_self e tl)
    have htl : ∀ x ∈ tl, (x.1 == url) = false := fun x hx => h x (List.mem_cons_of_mem e hx)
    simp only [cacheMatchIn, List.cons_append, List.find?_cons, he]
    exact ih htl

theorem filter_ne_keys (c : Cache) (url : String) :
    ∀ e ∈ c.filter (fun e => e.1 != url), (e.1 == url) = false := by
  intro e he
  have := (List.mem_filter.mp he).2
  simpa [bne] using this

theorem cacheMatchIn_putIn (c : Cache) (url : String) (r : Response) :
    cacheMatchIn (cachePutIn c url r) url = some r :=
  cacheMatchIn_append_last _ url r (filter_ne_keys c url)

theorem find?_eq_none_of_any_false (l : CacheStore) (name : String)
    (h : l.any (fun p => p.1 == name) = false) :
    l.find? (fun p => p.1 == name) = none := by
  rw [List.find?_eq_none]
  intro x hx
  have := List.any_eq_false.mp h x hx
  simpa using this

theorem storePut_openCache (cs : CacheStore) (name url : String) (r : Response) :
    openCache (storePut cs name url r) name = cachePutIn (openCache cs name) url r := by
  induction cs with
  | nil => simp [storePut, openCache]
  | cons p tl ih =>
    cases hp : (p.1 == name) with
    | true =>
      simp only [storePut, List.any_cons, hp, Bool.true_or, if_true,
        List.map_cons, openCache, List.find?_cons, hp]
      simp [hp]
    | false =>
      cases ha : tl.any (fun q => q.1 == name) with
      | true =>
        have h1 : ((p :: tl).any fun q => q.1 == name) = true := by
          simp [List.any_cons, hp, ha]
        have h2 : storePut tl name url r = tl.map
            (fun q => if q.1 == name then (q.1, cachePutIn q.2 url r) else q) := by
          simp [storePut, ha]
        simp only [storePut, h1, if_true, List.map_cons, hp, Bool.false_eq_true, if_false,
          openCache, List.find?_cons]
        rw [← h2]
        exact ih
      | false =>
        have h1 : ((p :: tl).any fun q => q.1 == name) = false := by
          simp [List.any_cons, hp, ha]
        have h2 : tl.find? (fun q => q.1 == name) = none :=
          find?_eq_none_of_any_false tl name ha
        simp only [storePut, h1, Bool.false_eq_true, if_false, List.cons_append,
          openCache, List.find?_cons, hp]
        rw [List.find?_append, h2]
        simp [h2, cachePutIn]

theorem storeLimit_openCache (cs : CacheStore) (name : String) (m : Nat) :
    openCache (storeLimit cs name m) name = limitCacheSize (openCache cs name) m := by
  induction cs with
  | nil => simp [storeLimit, openCache, limitCacheSize]
  | cons p tl ih =>
    cases hp : (p.1 == name) with
    | true =>
      simp only [storeLimit, List.map_cons, hp, if_true, openCache, List.find?_cons, hp]
      simp [hp]
    | false =>
      simp only [storeLimit, List.map_cons, hp, Bool.false_eq_true, if_false,
        openCache, List.find?_cons]
      exact ih

theorem foldl_delete_append_last (url : String) (r : Response) :
    ∀ (ks : List String) (l : Cache), (∀ k ∈ ks, (url != k) = true) →
      ks.foldl cacheDeleteIn (l ++ [(url, r)]) = ks.foldl cacheDeleteIn l ++ [(url, r)] := by
  intro ks
  induction ks with
  | nil => intro l _; rfl
  | cons k ks' ih =>
    intro l h
    have hk : (url != k) = true := h k (List.mem_cons_self k ks')
    have hks' : ∀ x ∈ ks', (url != x) = true := fun x hx => h x (List.mem_cons_of_mem k hx)
    simp only [List.foldl_cons]
    have : cacheDeleteIn (l ++ [(url, r)]) k = cacheDeleteIn l k ++ [(url, r)] := by
      simp [cacheDeleteIn, List.filter_append, hk]
    rw [this]
    exact ih (cacheDeleteIn l k) hks'

theorem foldl_delete_keys_preserved (url : String) :
    ∀ (ks : List String) (l : Cache), (∀ e ∈ l, (e.1 == url) = false) →
      ∀ e ∈ ks.foldl cacheDeleteIn l, (e.1 == url) = false := by
  intro ks
  induction ks with
  | nil => intro l h; exact h
  | cons k ks' ih =>
    intro l h
    refine ih (cacheDeleteIn l k) ?_
    intro e he
    exact h e (List.mem_filter.mp he).1

theorem cacheMatchIn_limit_putIn (c : Cache) (url : String) (r : Response) (m : Nat)
    (hm : 1 ≤ m) :
    cacheMatchIn (limitCacheSize (cachePutIn c url r) m) url = some r := by
  set l := c.filter (fun e => e.1 != url) with hl
  have hput : cachePutIn c url r = l ++ [(url, r)] := rfl
  have hkeys : (l ++ [(url, r)]).map Prod.fst = l.map Prod.fst ++ [url] := by
    simp
  rw [hput]
  unfold limitCacheSize
  rw [hkeys]
  by_cases hgt : (l.map Prod.fst ++ [url]).length > m
  · simp only [hgt, if_true]
    have hlen : (l.map Prod.fst ++ [url]).length = l.length + 1 := by simp
    have hle : (l.map Prod.fst ++ [url]).length - m ≤ (l.map Prod.fst).length := by
      simp only [hlen, List.length_map]
      omega
    rw [List.take_append_of_le_length hle]
    have hks : ∀ k ∈ (l.map Prod.fst).take ((l.map Prod.fst ++ [url]).length - m),
        (url != k) = true := by
      intro k hk
      have hk' : k ∈ l.map Prod.fst := List.mem_of_mem_take hk
      obtain ⟨e, he, hek⟩ := List.mem_map.mp hk'
      have hkey := filter_ne_keys c url e (hl ▸ he)
      rw [← hek]
      have hne : e.1 ≠ url := by
        intro hh
        rw [hh] at hkey
        simp at hkey
      simpa [bne_iff_ne] using Ne.symm hne
    rw [foldl_delete_append_last url r _ l hks]
    exact cacheMatchIn_append_last _ url r
      (foldl_delete_keys_preserved url _ l (filter_ne_keys c url))
  · simp only [hgt, if_false]
    exact cacheMatchIn_append_last l url r (filter_ne_keys c url)

/-- C3: under the cache-first strategy the cache is the source tried
first — on a hit the cached response is returned, the store is left
unchanged and the network is never consulted (the result is the same for
every network behaviour); only on a miss is the network fetched, its
response returned, and a status-200 response also stored into the given
cache. -/
theorem cacheFirst_spec (req : Request) (cacheName : String) (cs : CacheStore) :
    (∀ r, cachesMatch cs req.href = some r →
      ∀ net, cacheFirst req cacheName cs net = (r, cs)) ∧
    (cachesMatch cs req.href = none → ∀ resp,
      (cacheFirst req cacheName cs (some resp)).1 = resp ∧
      (resp.status = 200 →
        cacheMatchIn (openCache (cacheFirst req cacheName cs (some resp)).2 cacheName)
          req.href = some resp)) := by
  constructor
  · intro r h net
    simp [cacheFirst, h]
  · intro h resp
    cases hs : (resp.status == 200) with
    | true =>
      have h200 : resp.status = 200 := by simpa using hs
      constructor
      · simp [cacheFirst, h, hs]
      · intro _
        simp only [cacheFirst, h, hs, if_true]
        cases him : (cacheName == CACHE_NAME_IMAGES) with
        | true =>
          simp only [him, if_true]
          rw [storeLimit_openCache, storePut_openCache]
          exact cacheMatchIn_limit_putIn _ _ _ _ (by norm_num [MAX_CACHE_SIZE])
        | false =>
          simp only [him, Bool.false_eq_true, if_false]
          rw [storePut_openCache]
          exact cacheMatchIn_putIn _ _ _
    | false =>
      have h200 : ¬ resp.status = 200 := by simpa using hs
      exact ⟨by simp [cacheFirst, h, hs], fun hc => absurd hc h200⟩

theorem cacheFirst_spec_witness :
    (cacheFirst localeReq CACHE_NAME emptyStore (some okResponse)).1 = okResponse ∧
    cacheMatchIn
      (openCache (cacheFirst localeReq CACHE_NAME emptyStore (some okResponse)).2 CACHE_NAME)
      localeReq.href = some okResponse := by
  have h := (cacheFirst_spec localeReq CACHE_NAME emptyStore).2 rfl okResponse
  exact ⟨h.1, h.2 rfl⟩

/-- C4: under the network-first strategy the network is the source tried
first — a resolving fetch's response is returned (and a status-200
response is also stored into the given cache, while a non-200 response
leaves the store unchanged); only when the fetch throws is the cache
consulted, and a matching cached response is then returned with the
store unchanged. -/
theorem networkFirst_spec (req : Request) (cacheName : String) (cs : CacheStore) :
    (∀ resp,
      (networkFirst req cacheName cs (some resp)).1 = resp ∧
      (resp.status = 200 →
        cacheMatchIn (openCache (networkFirst req cacheName cs (some resp)).2 cacheName)
          req.href = some resp) ∧
      (¬ resp.status = 200 → networkFirst req cacheName cs (some resp) = (resp, cs))) ∧
    (∀ r, cachesMatch cs req.href = some r →
      networkFirst req cacheName cs none = (r, cs)) := by
  constructor
  · intro resp
    cases hs : (resp.status == 200) with
    | true =>
      have h200 : resp.status = 200 := by simpa using hs
      refine ⟨by simp [networkFirst, hs], fun _ => ?_, fun hc => absurd h200 hc⟩
      simp only [networkFirst, hs, if_true]
      cases hdy : (cacheName == CACHE_NAME_DYNAMIC) with
      | true =>
        simp only [hdy, if_true]
        rw [storeLimit_openCache, storePut_openCache]
        exact cacheMatchIn_limit_putIn _ _ _ _ (by norm_num [MAX_CACHE_SIZE])
      | false =>
        simp only [hdy, Bool.false_eq_true, if_false]
        rw [storePut_openCache]
        exact cacheMatchIn_putIn _ _ _
    | false =>
      have h200 : ¬ resp.status = 200 := by simpa using hs
      exact ⟨by simp [networkFirst, hs], fun hc => absurd hc h200, by simp [networkFirst, hs]⟩
  · intro r h
    simp [networkFirst, h]

theorem networkFirst_spec_witness :
    (networkFirst localeReq CACHE_NAME_DYNAMIC emptyStore (some okResponse)).1 = okResponse ∧
    cacheMatchIn
      (openCache (networkFirst localeReq CACHE_NAME_DYNAMIC emptyStore (some okResponse)).2
        CACHE_NAME_DYNAMIC)
      localeReq.href = some okResponse := by
  have h := (networkFirst_spec localeReq CACHE_NAME_DYNAMIC emptyStore).1 okResponse
  exact ⟨h.1, h.2.1 rfl⟩

/-- C7: when the network fetch throws and no cached response matches, both
strategies still return a response (the functions are total) and the
recovery is exactly: the cached `/offline.html` page for a navigation
request when it is cached, and otherwise the synthesized 503 text/plain
offline response; the cache storage is left unchanged. -/
theorem strategy_failure_recovery (req : Request) (cacheName : String) (cs : CacheStore)
    (h : cachesMatch cs req.href = none) :
    cacheFirst req cacheName cs none = (offlineFallback req cs, cs) ∧
    networkFirst req cacheName cs none = (offlineFallback req cs, cs) ∧
    (∀ off, (req.mode == "navigate") = true → cachesMatch cs "/offline.html" = some off →
      offlineFallback req cs = off) ∧
    ((req.mode == "navigate") = true → cachesMatch cs "/offline.html" = none →
      offlineFallback req cs = offlineResponse) ∧
    ((req.mode == "navigate") = false → offlineFallback req cs = offlineResponse) ∧
    offlineResponse.status = 503 ∧
    offlineResponse.contentType = "text/plain" := by
  refine ⟨by simp [cacheFirst, h], by simp [networkFirst, h], ?_, ?_, ?_, rfl, rfl⟩
  · intro off hnav hoff
    simp [offlineFallback, hnav, hoff]
  · intro hnav hoff
    simp [offlineFallback, hnav, hoff]
  · intro hnav
    simp [offlineFallback, hnav]

theorem strategy_failure_recovery_witness :
    cacheFirst navReq CACHE_NAME emptyStore none = (offlineFallback navReq emptyStore, emptyStore) ∧
    networkFirst navReq CACHE_NAME_DYNAMIC emptyStore none =
      (offlineFallback navReq emptyStore, emptyStore) ∧
    offlineFallback navReq emptyStore = offlineResponse := by
  have h1 := strategy_failure_recovery navReq CACHE_NAME emptyStore rfl
  have h2 := strategy_failure_recovery navReq CACHE_NAME_DYNAMIC emptyStore rfl
  exact ⟨h1.1, h2.2.1, h1.2.2.2.1 rfl rfl⟩

theorem setFirstTextNode_no_text :
    ∀ (ns : List DomNode) (s : String),
      (ns.filter isTextNode).isEmpty = true → setFirstTextNode ns s = ns := by
  intro ns
  induction ns with
  | nil => intro s _; rfl
  | cons n rest ih =>
    intro s h
    cases n with
    | text c => simp [List.filter_cons, isTextNode] at h
    | elem a cs =>
      simp only [List.filter_cons, isTextNode] at h
      simp only [setFirstTextNode]
      rw [ih s (by simpa using h)]

theorem setFirstTextNode_filter_elem :
    ∀ (ns : List DomNode) (s : String),
      (setFirstTextNode ns s).filter isElementNode = ns.filter isElementNode := by
  intro ns
  induction ns with
  | nil => intro s; rfl
  | cons n rest ih =>
    intro s
    cases n with
    | text c => simp [setFirstTextNode, List.filter_cons, isElementNode]
    | elem a cs =>
      simp only [setFirstTextNode, List.filter_cons, isElementNode]
      rw [ih s]

/-- C10 counterexample: an element carrying `data-i18n-attr` with child
elements and a first text node `old`; the translation is the non-empty,
non-key string `Hello`, yet after `applyTranslations` the first text
node still reads `old` — the attribute is set instead, so it is not the
case that for every element with child elements only the first text node
is replaced with the translation. -/
theorem applyTranslations_attr_counterexample :
    translate elemI18nState "greet" (.str "") = Json.str "Hello" ∧
    (mixedChildren.filter isElementNode).isEmpty = false ∧
    (applyTranslationsElem elemI18nState attrTargetAttrs mixedChildren).2 = mixedChildren ∧
    firstTextContent (applyTranslationsElem elemI18nState attrTargetAttrs mixedChildren).2 =
      some "old" ∧
    ¬ ("old" = "Hello") :=
  ⟨rfl, rfl, rfl, rfl, by decide⟩

/-- C10 (amended): an element with a `data-i18n` key is left entirely
unchanged when the translation is empty (falsy) or strictly equal to the
key; when the translation is usable, an element whose `data-i18n-attr`
attribute is present and non-empty has that attribute set to the
translation with its child nodes untouched, and an element whose
`data-i18n-attr` is absent or empty (falsy under the source's
`if (attr)` test) that has child elements has only its first text node
replaced while all child elements are preserved. -/
theorem applyTranslations_element_effect (st : I18nState)
    (attrs : List (String × String)) (childNodes : List DomNode) (key : String)
    (hk : getAttribute attrs "data-i18n" = some key) :
    ((jsTruthy (translate st key (.str "")) = false ∨
      jsStrictEqStr (translate st key (.str "")) key = true) →
      applyTranslationsElem st attrs childNodes = (attrs, childNodes)) ∧
    (jsTruthy (translate st key (.str "")) = true →
     jsStrictEqStr (translate st key (.str "")) key = false →
      (∀ attr, getAttribute attrs "data-i18n-attr" = some attr → attr ≠ "" →
        applyTranslationsElem st attrs childNodes =
          (setAttribute attrs attr (jsToString (translate st key (.str ""))), childNodes)) ∧
      (optStrTruthy (getAttribute attrs "data-i18n-attr") = false →
       (childNodes.filter isElementNode).isEmpty = false →
        applyTranslationsElem st attrs childNodes =
          (attrs, setFirstTextNode childNodes (jsToString (translate st key (.str "")))) ∧
        (setFirstTextNode childNodes
            (jsToString (translate st key (.str "")))).filter isElementNode =
          childNodes.filter isElementNode)) := by
  constructor
  · intro h
    have hguard : (jsTruthy (translate st key (.str "")) &&
        !(jsStrictEqStr (translate st key (.str "")) key)) = false := by
      rcases h with h | h <;> simp [h]
    simp [applyTranslationsElem, hk, hguard]
  · intro ht hne
    have hguard : (jsTruthy (translate st key (.str "")) &&
        !(jsStrictEqStr (translate st key (.str "")) key)) = true := by
      simp [ht, hne]
    constructor
    · intro attr hattr hattrne
      have hbne : (attr != "") = true := by simpa using hattrne
      simp [applyTranslationsElem, hk, hguard, hattr, hbne]
    · intro hfalsy hchild
      refine ⟨?_, setFirstTextNode_filter_elem childNodes _⟩
      have htext : applyTranslationsElem st attrs childNodes =
          applyTextUpdate (translate st key (.str "")) attrs childNodes := by
        cases hga : getAttribute attrs "data-i18n-attr" with
        | none => simp [applyTranslationsElem, hk, hguard, hga]
        | some a =>
          rw [hga] at hfalsy
          have ha : a = "" := by simpa [optStrTruthy] using hfalsy
          simp [applyTranslationsElem, hk, hguard, hga, ha]
      rw [htext]
      simp only [applyTextUpdate, hchild, Bool.false_eq_true, if_false]
      cases htx : (childNodes.filter isTextNode).isEmpty with
      | true =>
        rw [setFirstTextNode_no_text childNodes _ htx]
        simp [htx]
      | false => simp [htx]

theorem applyTranslations_element_effect_witness :
    applyTranslationsElem elemI18nState textTargetAttrs mixedChildren =
      (textTargetAttrs,
        setFirstTextNode mixedChildren (jsToString (translate elemI18nState "greet" (.str "")))) ∧
    (setFirstTextNode mixedChildren
        (jsToString (translate elemI18nState "greet" (.str "")))).filter isElementNode =
      mixedChildren.filter isElementNode :=
  ((applyTranslations_element_effect elemI18nState textTargetAttrs mixedChildren "greet"
      rfl).2 rfl rfl).2 rfl rfl

/-- C6: with `emailService` configured as `formsubmit`, `submitForm`
routes the validated submission to `submitToFormSubmit`, which POSTs the
collected field values plus the `_subject`, `_captcha` and `_template`
configuration fields as form data to
`https://formsubmit.co/<configured email>`, and reports success exactly
when the HTTP response is ok; the one request issued goes to the relay
endpoint, no custom backend. -/
theorem submitToFormSubmit_spec (opts : FormHandlerOptions)
    (formData : List (String × String)) (net : HttpRequest → FetchResponse)
    (email : String)
    (hservice : opts.emailService = "formsubmit")
    (hemail : opts.emailServiceConfigEmail = some email) (hne : email ≠ "") :
    submitRoute opts = .formsubmit ∧
    (formSubmitRequest opts formData).url = "https://formsubmit.co/" ++ email ∧
    (formSubmitRequest opts formData).method = "POST" ∧
    (formSubmitRequest opts formData).formBody =
      formData ++
        [("_subject",
           optStrOr ((formData.find? (fun p => p.1 == "subject")).map Prod.snd)
             "New Portfolio Contact"),
         ("_captcha", "false"), ("_template", "table")] ∧
    (submitToFormSubmit opts formData net = true ↔
      (net (formSubmitRequest opts formData)).ok = true) := by
  refine ⟨?_, ?_, rfl, rfl, Iff.rfl⟩
  · simp [submitRoute, hservice]
  · simp [formSubmitRequest, optStrOr, strOr, hemail, hne]

theorem submitToFormSubmit_spec_witness :
    submitRoute contactOpts = .formsubmit ∧
    (formSubmitRequest contactOpts contactData).url =
      "https://formsubmit.co/" ++ "vitorjacquesdev@gmail.com" ∧
    (formSubmitRequest contactOpts contactData).method = "POST" ∧
    (formSubmitRequest contactOpts contactData).formBody =
      contactData ++
        [("_subject",
           optStrOr ((contactData.find? (fun p => p.1 == "subject")).map Prod.snd)
             "New Portfolio Contact"),
         ("_captcha", "false"), ("_template", "table")] ∧
    (submitToFormSubmit contactOpts contactData okNet = true ↔
      (okNet (formSubmitRequest contactOpts contactData)).ok = true) :=
  submitToFormSubmit_spec contactOpts contactData okNet "vitorjacquesdev@gmail.com"
    rfl rfl (by decide)

theorem processAssets_mem (readFile : String → Option String) (minifier md5hex : String → String) :
    ∀ (files : List String) (file content : String),
      file ∈ files → readFile file = some content →
      (file, createHashedFile md5hex file (minifier content)) ∈
        (processAssets readFile minifier md5hex files).1 ∧
      (createHashedFile md5hex file (minifier content), minifier content) ∈
        (processAssets readFile minifier md5hex files).2 := by
  intro files
  induction files with
  | nil => intro file content h _; exact absurd h (List.not_mem_nil file)
  | cons f fs ih =>
    intro file content hmem hread
    rcases List.mem_cons.mp hmem with heq | htl
    · subst heq
      simp only [processAssets, processAssetsGo, hread]
      exact ⟨List.mem_cons_self _ _, List.mem_cons_self _ _⟩
    · have h := ih file content htl hread
      simp only [processAssets] at h ⊢
      simp only [processAssetsGo]
      cases hf : readFile f with
      | some src => exact ⟨List.mem_cons_of_mem _ h.1, List.mem_cons_of_mem _ h.2⟩
      | none => exact h

theorem replaceAllAux_succ (pat rep : List Char) (fuel : Nat) (s : List Char) :
    replaceAllAux pat rep (fuel + 1) s =
      match findFirst s pat with
      | none => s
      | some i => s.take i ++ rep ++ replaceAllAux pat rep fuel (s.drop (i + pat.length)) :=
  rfl

theorem findFirst_some_ne_nil (pat : List Char) (hp : pat ≠ []) (s : List Char) (i : Nat)
    (h : findFirst s pat = some i) : s ≠ [] := by
  intro hs
  subst hs
  cases pat with
  | nil => exact hp rfl
  | cons a as => simp [findFirst, List.isPrefixOf] at h

theorem replaceAllAux_fuel (pat rep : List Char) (hp : pat ≠ []) :
    ∀ (f1 : Nat) (s : List Char) (f2 : Nat), s.length < f1 → s.length < f2 →
      replaceAllAux pat rep f1 s = replaceAllAux pat rep f2 s := by
  intro f1
  induction f1 with
  | zero => intro s f2 h1 _; exact absurd h1 (Nat.not_lt_zero _)
  | succ f1' ih =>
    intro s f2 h1 h2
    cases f2 with
    | zero => exact absurd h2 (Nat.not_lt_zero _)
    | succ f2' =>
      rw [replaceAllAux_succ, replaceAllAux_succ]
      cases hf : findFirst s pat with
      | none => rfl
      | some i =>
        have hs : s ≠ [] := findFirst_some_ne_nil pat hp s i hf
        have hs1 : 1 ≤ s.length := by
          cases s with
          | nil => exact absurd rfl hs
          | cons a as => simp
        have hp1 : 1 ≤ pat.length := by
          cases pat with
          | nil => exact absurd rfl hp
          | cons a as => simp
        have hd : (s.drop (i + pat.length)).length = s.length - (i + pat.length) :=
          List.length_drop _ _
        dsimp only
        rw [ih (s.drop (i + pat.length)) f2' (by omega) (by omega)]

theorem jsReplaceAllL_of_none (s pat rep : List Char) (h : findFirst s pat = none) :
    jsReplaceAllL s pat rep = s := by
  unfold jsReplaceAllL
  rw [replaceAllAux_succ, h]

theorem jsReplaceAllL_unfold (pat rep : List Char) (hp : pat ≠ []) (s : List Char) (i : Nat)
    (h : findFirst s pat = some i) :
    jsReplaceAllL s pat rep =
      s.take i ++ rep ++ jsReplaceAllL (s.drop (i + pat.length)) pat rep := by
  unfold jsReplaceAllL
  rw [replaceAllAux_succ, h]
  have hs : s ≠ [] := findFirst_some_ne_nil pat hp s i h
  have hs1 : 1 ≤ s.length := by
    cases s with
    | nil => exact absurd rfl hs
    | cons a as => simp
  have hp1 : 1 ≤ pat.length := by
    cases pat with
    | nil => exact absurd rfl hp
    | cons a as => simp
  have hd : (s.drop (i + pat.length)).length = s.length - (i + pat.length) :=
    List.length_drop _ _
  dsimp only
  rw [replaceAllAux_fuel pat rep hp (s.length) (s.drop (i + pat.length))
    ((s.drop (i + pat.length)).length + 1) (by omega) (by omega)]

/-- C5 (amended): the build script minifies and hashes each configured
asset individually — for every file that reads successfully, the asset
map pairs it with the hashed path, the write performed stores exactly
the minified content, and the hashed path is `dir/base.HASH.ext` where
`HASH` is the first 8 hex digits of the MD5 of the minified content; and
the `index.html` rewriting (`replaceAll` per asset-map entry) replaces
occurrence after occurrence of the original path from the left — it is
the identity when the path does not occur, and rewrites the leftmost
occurrence and continues on the remainder when it does. -/
theorem build_asset_pipeline :
    (∀ (readFile : String → Option String) (minifier md5hex : String → String)
       (files : List String) (file content : String),
       file ∈ files → readFile file = some content →
       (file, createHashedFile md5hex file (minifier content)) ∈
         (processAssets readFile minifier md5hex files).1 ∧
       (createHashedFile md5hex file (minifier content), minifier content) ∈
         (processAssets readFile minifier md5hex files).2 ∧
       createHashedFile md5hex file (minifier content) =
         posixJoin (dirname file)
           (basename file (extname file) ++ "." ++
             strTake (md5hex (minifier content)) 8 ++ extname file)) ∧
    (∀ (html pat rep : List Char), pat ≠ [] →
      (findFirst html pat = none → jsReplaceAllL html pat rep = html) ∧
      (∀ i, findFirst html pat = some i →
        jsReplaceAllL html pat rep =
          html.take i ++ rep ++ jsReplaceAllL (html.drop (i + pat.length)) pat rep)) := by
  constructor
  · intro readFile minifier md5hex files file content hmem hread
    have h := processAssets_mem readFile minifier md5hex files file content hmem hread
    exact ⟨h.1, h.2, rfl⟩
  · intro html pat rep hp
    exact ⟨jsReplaceAllL_of_none html pat rep,
      fun i hi => jsReplaceAllL_unfold pat rep hp html i hi⟩

theorem build_asset_pipeline_witness :
    (("css/a.css", createHashedFile constHash "css/a.css" "AAAA") ∈
       (processAssets twoCssRead (fun s => s) constHash ["css/a.css", "css/b.css"]).1 ∧
     (createHashedFile constHash "css/a.css" "AAAA", "AAAA") ∈
       (processAssets twoCssRead (fun s => s) constHash ["css/a.css", "css/b.css"]).2 ∧
     createHashedFile constHash "css/a.css" "AAAA" =
       posixJoin (dirname "css/a.css")
         (basename "css/a.css" (extname "css/a.css") ++ "." ++
           strTake (constHash "AAAA") 8 ++ extname "css/a.css")) ∧
    (findFirst "xbx".data "b".data = none → jsReplaceAllL "xbx".data "b".data "y".data = "xbx".data) ∧
    (∀ i, findFirst "xbx".data "b".data = some i →
      jsReplaceAllL "xbx".data "b".data "y".data =
        "xbx".data.take i ++ "y".data ++
          jsReplaceAllL ("xbx".data.drop (i + "b".data.length)) "b".data "y".data) :=
  ⟨build_asset_pipeline.1 twoCssRead (fun s => s) constHash ["css/a.css", "css/b.css"]
      "css/a.css" "AAAA" (List.mem_cons_self _ _) rfl,
   build_asset_pipeline.2 "xbx".data "b".data "y".data (by decide)⟩

/-- C5 counterexample (no concatenation): processing two CSS files
yields two separate outputs, each the minified content of one input
alone; no output contains the contents of both files, so the script does
not concatenate the configured assets. -/
theorem build_no_concatenation :
    (processAssets twoCssRead (fun s => s) constHash ["css/a.css", "css/b.css"]).2 =
      [("css/a.01234567.css", "AAAA"), ("css/b.01234567.css", "BBBB")] ∧
    ((processAssets twoCssRead (fun s => s) constHash ["css/a.css", "css/b.css"]).2.all
      (fun o => !(strContains o.2 "AAAA" && strContains o.2 "BBBB"))) = true :=
  ⟨rfl, rfl⟩

end Portfolio

